import Mathlib

set_option autoImplicit false

/-!
A verification model of the snarkOS network `peers` module
(`src/network/peers.rs`): the peer registry (`Peers`), the connection
precheck of `Peers::connect_to`, the handshake (`Peer::new`), and the
per-peer steady-state loop with its removal epilogue (`Peer::handler`),
embedded as pure functions.

External collaborators (socket I/O, the wire codec, `snarkvm` block
headers) are represented at their interface boundary: received frames
become `RecvEvent`/`LoopEvent` inputs that carry the frame's
deserialization outcome, socket writes during the steady-state loop
carry an explicit success flag (handshake writes are taken to succeed,
since every claim about the handshake concerns its validation logic),
and block headers are a record exposing a height, an abstract body and a
validity bit, exactly the interface `peers.rs` consumes.
-/

/-- An IPv4 address, as four octets. -/
structure IpAddr where
  a : Nat
  b : Nat
  c : Nat
  d : Nat
deriving DecidableEq

/-- `Ipv4Addr::is_unspecified`: the address `0.0.0.0`. -/
def IpAddr.is_unspecified (ip : IpAddr) : Bool :=
  decide (ip.a = 0 ∧ ip.b = 0 ∧ ip.c = 0 ∧ ip.d = 0)

/-- `Ipv4Addr::is_loopback`: the `127.0.0.0/8` block. -/
def IpAddr.is_loopback (ip : IpAddr) : Bool :=
  decide (ip.a = 127)

/-- `std::net::SocketAddr`: an IP address plus a port. -/
structure SocketAddr where
  ip : IpAddr
  port : Nat
deriving DecidableEq

/-- `SocketAddr::set_port` (functionally: the address with the port replaced). -/
def SocketAddr.set_port (s : SocketAddr) (p : Nat) : SocketAddr :=
  { s with port := p }

/-- A `snarkvm` block header, at the interface `peers.rs` consumes:
`height()`, structural equality, and `is_valid()`.  The `body` field
stands for all remaining header content, so two headers with equal
fields are structurally equal exactly as in the source. -/
structure BlockHeader where
  height : Nat
  body : Nat
  valid : Bool
deriving DecidableEq

/-- `BlockHeader::is_valid`. -/
def BlockHeader.is_valid (h : BlockHeader) : Bool := h.valid

/-- The `Message<N>` variants this module constructs or matches on. -/
inductive Message where
  | ChallengeRequest (listener_port : Nat) (block_height : Nat)
  | ChallengeResponse (header : BlockHeader)
  | Ping (block_height : Nat)
  | Pong
deriving DecidableEq

/-- The sender half of a peer's bounded mpsc channel: its queued
messages, plus whether the receiver has been dropped (a closed
channel).  `mpsc::Sender::send` fails exactly when the channel is
closed; a full channel suspends the sender and eventually enqueues, so
capacity is not a failure mode and is not modelled as one. -/
structure Channel where
  closed : Bool
  queue : List Message
deriving DecidableEq

/-- The error conditions of the registry operations: `local_ip()`'s
"Local IP is unknown", `NetworkError::SelfConnectAttempt`, `send`'s
"Attempted to send to a non-connected peer", and the mpsc send error on
a closed channel. -/
inductive NetError where
  | localIpUnknown
  | selfConnectAttempt
  | peerNotConnected
  | channelClosed
deriving DecidableEq

/-- `mpsc::Sender::send`. -/
def Channel.send (ch : Channel) (m : Message) : Except NetError Channel :=
  if ch.closed then .error .channelClosed
  else .ok { ch with queue := ch.queue ++ [m] }

/-- `HashMap` lookup over the registry's entry list (keys are unique). -/
def lookupPeer : List (SocketAddr × Channel) → SocketAddr → Option Channel
  | [], _ => none
  | (a, c) :: rest, k => if a = k then some c else lookupPeer rest k

/-- `HashMap::insert` over the registry's entry list: replaces the value
if the key is present, otherwise appends the new entry. -/
def insertPeer : List (SocketAddr × Channel) → SocketAddr → Channel → List (SocketAddr × Channel)
  | [], k, v => [(k, v)]
  | (a, c) :: rest, k, v => if a = k then (k, v) :: rest else (a, c) :: insertPeer rest k v

/-- `HashMap::remove` over the registry's entry list: drops the entry
with the given key (all occurrences; keys are unique in a `HashMap`). -/
def removePeer : List (SocketAddr × Channel) → SocketAddr → List (SocketAddr × Channel)
  | [], _ => []
  | (a, c) :: rest, k => if a = k then removePeer rest k else (a, c) :: removePeer rest k

/-- `Peers<N>`: the registry of connected peers.  The `HashMap` becomes
an entry list with unique keys; the `OnceCell<SocketAddr>` becomes an
`Option SocketAddr`. -/
structure Peers where
  peers : List (SocketAddr × Channel)
  local_ip : Option SocketAddr
deriving DecidableEq

/-- `Peers::new`. -/
def Peers.new : Peers :=
  { peers := [], local_ip := none }

/-- `Peers::is_connected_to`. -/
def Peers.is_connected_to (ps : Peers) (ip : SocketAddr) : Bool :=
  (lookupPeer ps.peers ip).isSome

/-- `Peers::num_connected_peers`. -/
def Peers.num_connected_peers (ps : Peers) : Nat :=
  ps.peers.length

/-- `Peers::local_ip` (the accessor method; the field keeps the source
name `local_ip`, so the method gains a `_get` suffix). -/
def Peers.local_ip_get (ps : Peers) : Except NetError SocketAddr :=
  match ps.local_ip with
  | some local_ip => .ok local_ip
  | none => .error .localIpUnknown

/-- `Peers::send`: looks up the peer's outbound channel and sends on it;
the returned registry reflects the enqueue.  Errors (unknown peer, or a
closed channel propagated by `?`) leave the registry unchanged, which
the returned `Peers` value makes explicit. -/
def Peers.send (ps : Peers) (peer : SocketAddr) (m : Message) : Except NetError Unit × Peers :=
  match lookupPeer ps.peers peer with
  | some outbound =>
    match outbound.send m with
    | .ok ch2 => (.ok (), { ps with peers := insertPeer ps.peers peer ch2 })
    | .error e => (.error e, ps)
  | none => (.error .peerNotConnected, ps)

/-- The iteration of `Peers::broadcast` over the entry list: each
non-sender entry is sent the message in order, but the `?` on the send
propagates the first failure, aborting the sends to all later
entries. -/
def broadcastList : List (SocketAddr × Channel) → SocketAddr → Message → Except NetError Unit × List (SocketAddr × Channel)
  | [], _, _ => (.ok (), [])
  | (a, ch) :: rest, sender, m =>
    if a ≠ sender then
      match ch.send m with
      | .ok ch2 =>
        let r := broadcastList rest sender m
        (r.1, (a, ch2) :: r.2)
      | .error e => (.error e, (a, ch) :: rest)
    else
      let r := broadcastList rest sender m
      (r.1, (a, ch) :: r.2)

/-- `Peers::broadcast`. -/
def Peers.broadcast (ps : Peers) (sender : SocketAddr) (m : Message) : Except NetError Unit × Peers :=
  let r := broadcastList ps.peers sender m
  (r.1, { ps with peers := r.2 })

/-- The pre-dial phase of `Peers::connect_to`: requires the local
address to be known (`local_ip()?`), then rejects self-connection.  An
`.ok` result is the only case in which the source proceeds to the
socket dial, so every error here occurs before any socket operation. -/
def Peers.connect_to_check (ps : Peers) (peer_ip : SocketAddr) : Except NetError SocketAddr :=
  match ps.local_ip_get with
  | .error e => .error e
  | .ok local_ip =>
    let is_self := (peer_ip.ip.is_unspecified || peer_ip.ip.is_loopback) && peer_ip.port == local_ip.port
    if peer_ip = local_ip ∨ is_self = true then .error .selfConnectAttempt
    else .ok peer_ip

/-- The `.expect` on `OnceCell::set` in `Peers::listen` panics when the
cell is already set; the panic is modelled as this error value. -/
inductive ListenPanic where
  | setMoreThanOnce
deriving DecidableEq

/-- The `local_ip`-recording step of `Peers::listen`: stores the
discovered bound address into the once-cell; a second set is the
source's `.expect("The local IP address was set more than once!")`
panic. -/
def Peers.listen_set_local_ip (ps : Peers) (discovered_local_ip : SocketAddr) : Except ListenPanic Peers :=
  match ps.local_ip with
  | none => .ok { ps with local_ip := some discovered_local_ip }
  | some _ => .error .setMoreThanOnce

deriving instance DecidableEq for Except

/-- `CHALLENGE_HEIGHT`. -/
def CHALLENGE_HEIGHT : Nat := 0

/-- The outcome of one `socket.next().await` during the handshake:
`frame` is `Some(Ok(bytes))` carrying the frame's deserialization
result, `streamError` is `Some(Err(_))`, and `closed` is `None`. -/
inductive RecvEvent where
  | frame (d : Except Unit Message)
  | streamError
  | closed
deriving DecidableEq

/-- The failure cases of `Peer::new`, one per early-return `?`/`Err` in
the source. -/
inductive HandshakeErr where
  | localIpUnknown
  | deserializeFailed
  | unexpectedMessage
  | streamFailed
  | disconnected
  | challengeFailed
deriving DecidableEq

/-- `Peer::new`: the handshake.  Sends `ChallengeRequest(local_port,
CHALLENGE_HEIGHT)`, consumes the counterparty's two messages (`ev1`,
`ev2`), and on acceptance inserts a fresh channel into the registry
keyed by the TCP address with its port replaced by the declared
listener port.  Returns the normalized peer address, the updated
registry, and the messages written to the socket.  The source's Bool
conjunction `height == CHALLENGE_HEIGHT && header == genesis &&
is_valid` is rendered as the corresponding decidable conjunction. -/
def Peer.new (ps : Peers) (genesis : BlockHeader) (tcpAddr : SocketAddr) (ev1 ev2 : RecvEvent) :
    Except HandshakeErr (SocketAddr × Peers × List Message) :=
  match ps.local_ip with
  | none => .error .localIpUnknown
  | some local_ip =>
    match ev1 with
    | .streamError => .error .streamFailed
    | .closed => .error .disconnected
    | .frame (.error _) => .error .deserializeFailed
    | .frame (.ok (.ChallengeRequest listener_port _block_height)) =>
      match ev2 with
      | .streamError => .error .streamFailed
      | .closed => .error .disconnected
      | .frame (.error _) => .error .deserializeFailed
      | .frame (.ok (.ChallengeResponse header)) =>
        if header.height = CHALLENGE_HEIGHT ∧ header = genesis ∧ header.is_valid = true then
          .ok (tcpAddr.set_port listener_port,
               { ps with peers := insertPeer ps.peers (tcpAddr.set_port listener_port) ⟨false, []⟩ },
               [Message.ChallengeRequest local_ip.port CHALLENGE_HEIGHT,
                Message.ChallengeResponse genesis,
                Message.Ping 0])
        else .error .challengeFailed
      | .frame (.ok _) => .error .unexpectedMessage
    | .frame (.ok _) => .error .unexpectedMessage

/-- The inactivity threshold of the steady-state loop:
`Duration::from_secs(280)`. -/
def INACTIVITY_TIMEOUT_SECS : Nat := 280

/-- The mutable per-session state of the steady-state loop: the
`last_seen` timestamp, as seconds on a logical clock. -/
structure LoopState where
  last_seen : Nat
deriving DecidableEq

/-- One event consumed by the steady-state `tokio::select!`: a message
arriving on the router channel (with the outcome of the subsequent
socket write), a socket frame (with its deserialization outcome and the
outcome of any reply write), a socket read error, or stream closure.
Each event carries the logical time at which it fires. -/
inductive LoopEvent where
  | router (t : Nat) (m : Message) (writeOk : Bool)
  | frame (t : Nat) (d : Except Unit Message) (writeOk : Bool)
  | streamError (t : Nat)
  | closed (t : Nat)
deriving DecidableEq

/-- The ways the loop body can stop early via `?`: a failed
`peer.send` socket write, or a failed `Message::deserialize`. -/
inductive LoopErr where
  | writeFailed
  | deserializeFailed
deriving DecidableEq

/-- How a run of the steady-state loop ends: `broke` falls through to
the removal epilogue; `errored` is an early return via `?` that skips
it; `running` means the event trace is exhausted with the loop still
waiting. -/
inductive LoopEnd where
  | broke
  | errored (e : LoopErr)
  | running
deriving DecidableEq

/-- The steady-state loop of `Peer::handler`, run over an event trace.
Returns the messages written to the socket, the final loop state, and
how the run ended.  Mirrors the source: a routed outbound message first
checks `last_seen.elapsed() > 280` and breaks instead of forwarding; a
parsed inbound message updates `last_seen`, then a post-handshake
`ChallengeRequest`/`ChallengeResponse` breaks, `Ping` replies `Pong`,
`Pong` replies `Ping(1)`; a read error is only logged and the loop
continues; stream closure breaks. -/
def runLoop : LoopState → List LoopEvent → List Message × LoopState × LoopEnd
  | st, [] => ([], st, .running)
  | st, .router t m writeOk :: rest =>
    if t - st.last_seen > INACTIVITY_TIMEOUT_SECS then ([], st, .broke)
    else if writeOk then
      let r := runLoop st rest
      (m :: r.1, r.2)
    else ([], st, .errored .writeFailed)
  | st, .frame t d writeOk :: rest =>
    match d with
    | .error _ => ([], st, .errored .deserializeFailed)
    | .ok m =>
      match m with
      | .ChallengeRequest _ _ => ([], { st with last_seen := t }, .broke)
      | .ChallengeResponse _ => ([], { st with last_seen := t }, .broke)
      | .Ping _ =>
        if writeOk then
          let r := runLoop { st with last_seen := t } rest
          (Message.Pong :: r.1, r.2)
        else ([], { st with last_seen := t }, .errored .writeFailed)
      | .Pong =>
        if writeOk then
          let r := runLoop { st with last_seen := t } rest
          (Message.Ping 1 :: r.1, r.2)
        else ([], { st with last_seen := t }, .errored .writeFailed)
  | st, .streamError _ :: rest => runLoop st rest
  | st, .closed _ :: rest =>
    let _ := rest
    ([], st, .broke)

/-- The result status of `Peer::handler` as seen by its spawner. -/
inductive HandlerErr where
  | handshake (e : HandshakeErr)
  | loop (e : LoopErr)
deriving DecidableEq

/-- Whether `Peer::handler` has returned, and how. -/
inductive HandlerStatus where
  | running
  | returned
  | failed (e : HandlerErr)
deriving DecidableEq

/-- The tail of `Peer::handler` after the handshake: given the registry
at the moment the loop stops and the loop's outcome, produce the final
registry and the handler's status.  Only the `broke` outcome reaches
the source's removal epilogue (`peers.peers.remove(&peer_ip)`); an
`errored` outcome is an early `?` return that skips it. -/
def handlerFinish (reg : Peers) (peer_ip : SocketAddr) :
    List Message × LoopState × LoopEnd → Peers × HandlerStatus
  | (_, _, .broke) => ({ reg with peers := removePeer reg.peers peer_ip }, .returned)
  | (_, _, .errored e) => (reg, .failed (.loop e))
  | (_, _, .running) => (reg, .running)

/-- `Peer::handler`: the handshake, then the steady-state loop over the
given event trace (with `last_seen` initialized to the session start
time), then the removal epilogue when the loop breaks. -/
def Peer.handlerModel (ps : Peers) (genesis : BlockHeader) (tcpAddr : SocketAddr)
    (ev1 ev2 : RecvEvent) (startTime : Nat) (trace : List LoopEvent) : Peers × HandlerStatus :=
  match Peer.new ps genesis tcpAddr ev1 ev2 with
  | .error e => (ps, .failed (.handshake e))
  | .ok (peer_ip, ps2, _sent) =>
    handlerFinish ps2 peer_ip (runLoop { last_seen := startTime } trace)

/-- The message-delivery effect of an uninterrupted broadcast pass over
an entry list: every non-sender entry has the message appended to its
queue. -/
def deliverAll (l : List (SocketAddr × Channel)) (sender : SocketAddr) (m : Message) : List (SocketAddr × Channel) :=
  l.map (fun p => if p.1 = sender then p else (p.1, { p.2 with queue := p.2.queue ++ [m] }))

/-- A sample remote peer address. -/
def addrA : SocketAddr := ⟨⟨1, 2, 3, 4⟩, 10⟩

/-- A second sample remote peer address. -/
def addrB : SocketAddr := ⟨⟨5, 6, 7, 8⟩, 20⟩

/-- A third sample remote peer address, used as a broadcast sender. -/
def addrC : SocketAddr := ⟨⟨9, 9, 9, 9⟩, 30⟩

/-- A sample local (bound listener) address, `127.0.0.1:4130`. -/
def addrL : SocketAddr := ⟨⟨127, 0, 0, 1⟩, 4130⟩

/-- An open outbound channel with an empty queue. -/
def openChan : Channel := ⟨false, []⟩

/-- A closed outbound channel (its receiver was dropped). -/
def closedChan : Channel := ⟨true, []⟩

/-- A sample genesis block header: height 0, valid. -/
def genesisH : BlockHeader := ⟨0, 77, true⟩

/-- A sample TCP remote address of an inbound connection (ephemeral
source port 555). -/
def tcpC : SocketAddr := ⟨⟨9, 8, 7, 6⟩, 555⟩

/-- A counterparty `ChallengeRequest` declaring listener port 4131 and
block height 7. -/
def ev1C : RecvEvent := .frame (.ok (.ChallengeRequest 4131 7))

/-- A counterparty `ChallengeResponse` carrying the matching genesis
header. -/
def ev2C : RecvEvent := .frame (.ok (.ChallengeResponse genesisH))

/-- A registry with no peers whose local address is known. -/
def psW : Peers := ⟨[], some addrL⟩

theorem lookupPeer_insertPeer (l : List (SocketAddr × Channel)) (k : SocketAddr) (v : Channel) (x : SocketAddr) :
    lookupPeer (insertPeer l k v) x = if k = x then some v else lookupPeer l x := by
  induction l with
  | nil => simp [insertPeer, lookupPeer]
  | cons p rest ih =>
    obtain ⟨a, c⟩ := p
    by_cases hak : a = k
    · subst hak
      by_cases hax : a = x <;> simp [insertPeer, lookupPeer, hax]
    · by_cases hax : a = x
      · subst hax
        have hka : k ≠ a := fun hh => hak hh.symm
        simp [insertPeer, lookupPeer, hak, hka, ih]
      · simp [insertPeer, lookupPeer, hak, hax, ih]

theorem insertPeer_map_fst (l : List (SocketAddr × Channel)) (k : SocketAddr) (v c : Channel)
    (h : lookupPeer l k = some c) :
    (insertPeer l k v).map Prod.fst = l.map Prod.fst := by
  induction l with
  | nil => simp [lookupPeer] at h
  | cons p rest ih =>
    obtain ⟨a, c0⟩ := p
    by_cases hak : a = k
    · subst hak; simp [insertPeer]
    · simp only [lookupPeer, if_neg hak] at h
      simp [insertPeer, if_neg hak, ih h]

theorem lookupPeer_removePeer_self (l : List (SocketAddr × Channel)) (k : SocketAddr) :
    lookupPeer (removePeer l k) k = none := by
  induction l with
  | nil => simp [removePeer, lookupPeer]
  | cons p rest ih =>
    obtain ⟨a, c⟩ := p
    by_cases hak : a = k
    · simp [removePeer, hak, ih]
    · simp [removePeer, hak, lookupPeer, ih]

theorem lookupPeer_removePeer_ne (l : List (SocketAddr × Channel)) (k x : SocketAddr) (hx : x ≠ k) :
    lookupPeer (removePeer l k) x = lookupPeer l x := by
  induction l with
  | nil => simp [removePeer]
  | cons p rest ih =>
    obtain ⟨a, c⟩ := p
    by_cases hak : a = k
    · subst hak
      rw [removePeer, if_pos rfl, lookupPeer, if_neg (fun hh => hx hh.symm), ih]
    · simp only [removePeer, if_neg hak, lookupPeer, ih]

theorem removePeer_of_lookup_none (l : List (SocketAddr × Channel)) (k : SocketAddr)
    (h : lookupPeer l k = none) :
    removePeer l k = l := by
  induction l with
  | nil => simp [removePeer]
  | cons p rest ih =>
    obtain ⟨a, c⟩ := p
    by_cases hak : a = k
    · subst hak; simp [lookupPeer] at h
    · simp only [lookupPeer, if_neg hak] at h
      simp [removePeer, hak, ih h]

theorem broadcastList_map_fst (l : List (SocketAddr × Channel)) (s : SocketAddr) (m : Message) :
    ((broadcastList l s m).2).map Prod.fst = l.map Prod.fst := by
  induction l with
  | nil => simp [broadcastList]
  | cons p rest ih =>
    obtain ⟨a, c⟩ := p
    by_cases has : a = s
    · simp [broadcastList, has, ih]
    · simp only [broadcastList, if_pos (by exact has : a ≠ s)]
      cases hsend : c.send m with
      | ok c2 => simp [ih]
      | error e => simp

theorem broadcastList_allOpen (l : List (SocketAddr × Channel)) (s : SocketAddr) (m : Message)
    (h : ∀ p ∈ l, p.1 ≠ s → p.2.closed = false) :
    broadcastList l s m = (.ok (), deliverAll l s m) := by
  induction l with
  | nil => simp [broadcastList, deliverAll]
  | cons p rest ih =>
    obtain ⟨a, c⟩ := p
    have hrest : ∀ p ∈ rest, p.1 ≠ s → p.2.closed = false := fun p hp => h p (List.mem_cons_of_mem _ hp)
    by_cases has : a = s
    · simp [broadcastList, has, ih hrest, deliverAll]
    · have hopen : c.closed = false := h (a, c) (List.mem_cons_self _ _) has
      simp [broadcastList, has, Channel.send, hopen, ih hrest, deliverAll]

theorem broadcastList_closedAt (pre post : List (SocketAddr × Channel)) (a : SocketAddr) (ch : Channel)
    (s : SocketAddr) (m : Message)
    (hne : a ≠ s) (hclosed : ch.closed = true)
    (hpre : ∀ p ∈ pre, p.1 ≠ s → p.2.closed = false) :
    broadcastList (pre ++ (a, ch) :: post) s m
      = (.error .channelClosed, deliverAll pre s m ++ (a, ch) :: post) := by
  induction pre with
  | nil => simp [broadcastList, hne, Channel.send, hclosed, deliverAll]
  | cons p rest ih =>
    obtain ⟨b, cb⟩ := p
    have hrest : ∀ p ∈ rest, p.1 ≠ s → p.2.closed = false := fun p hp => hpre p (List.mem_cons_of_mem _ hp)
    by_cases hbs : b = s
    · simp [broadcastList, hbs, ih hrest, deliverAll]
    · have hopen : cb.closed = false := hpre (b, cb) (List.mem_cons_self _ _) hbs
      simp [broadcastList, hbs, Channel.send, hopen, ih hrest, deliverAll]
theorem handshake_ok_shape (ps : Peers) (g : BlockHeader) (tcp : SocketAddr) (ev1 ev2 : RecvEvent)
    (pip : SocketAddr) (ps2 : Peers) (sent : List Message)
    (hok : Peer.new ps g tcp ev1 ev2 = .ok (pip, ps2, sent)) :
    ∃ L lp h hdr,
      ps.local_ip = some L ∧
      ev1 = .frame (.ok (.ChallengeRequest lp h)) ∧
      ev2 = .frame (.ok (.ChallengeResponse hdr)) ∧
      hdr.height = CHALLENGE_HEIGHT ∧ hdr = g ∧ hdr.is_valid = true ∧
      pip = tcp.set_port lp ∧
      ps2 = { ps with peers := insertPeer ps.peers (tcp.set_port lp) ⟨false, []⟩ } ∧
      sent = [Message.ChallengeRequest L.port CHALLENGE_HEIGHT, Message.ChallengeResponse g, Message.Ping 0] := by
  cases hL : ps.local_ip with
  | none => simp [Peer.new, hL] at hok
  | some L =>
    cases ev1 with
    | streamError => simp [Peer.new, hL] at hok
    | closed => simp [Peer.new, hL] at hok
    | frame d1 =>
      cases d1 with
      | error e1 => simp [Peer.new, hL] at hok
      | ok m1 =>
        cases m1 with
        | Ping _ => simp [Peer.new, hL] at hok
        | Pong => simp [Peer.new, hL] at hok
        | ChallengeResponse _ => simp [Peer.new, hL] at hok
        | ChallengeRequest lp h =>
          cases ev2 with
          | streamError => simp [Peer.new, hL] at hok
          | closed => simp [Peer.new, hL] at hok
          | frame d2 =>
            cases d2 with
            | error e2 => simp [Peer.new, hL] at hok
            | ok m2 =>
              cases m2 with
              | ChallengeRequest _ _ => simp [Peer.new, hL] at hok
              | Ping _ => simp [Peer.new, hL] at hok
              | Pong => simp [Peer.new, hL] at hok
              | ChallengeResponse hdr =>
                by_cases hc : hdr.height = CHALLENGE_HEIGHT ∧ hdr = g ∧ hdr.is_valid = true
                · simp only [Peer.new, hL, if_pos hc, Except.ok.injEq, Prod.mk.injEq] at hok
                  obtain ⟨h1, h2, h3⟩ := hok
                  exact ⟨L, lp, h, hdr, rfl, rfl, rfl, hc.1, hc.2.1, hc.2.2, h1.symm, h2.symm, h3.symm⟩
                · simp [Peer.new, hL, if_neg hc] at hok

/-- Claim C10: the handshake outcome is independent of the block height
the counterparty declares in its `ChallengeRequest` — for any two runs
of `Peer::new` differing only in that declared height, the result
(acceptance or failure, registry key, registry contents, and the
messages written) is identical, because the source binds the height as
`_block_height` and never inspects it. -/
theorem claim_C10 (ps : Peers) (g : BlockHeader) (tcp : SocketAddr) (lp h1 h2 : Nat) (ev2 : RecvEvent) :
    Peer.new ps g tcp (.frame (.ok (.ChallengeRequest lp h1))) ev2
      = Peer.new ps g tcp (.frame (.ok (.ChallengeRequest lp h2))) ev2 := rfl

/-- Claim C8: `Peers::send` to an address with no registry entry fails
with the peer-not-connected error and has no side effect — the registry
(and with it every peer's channel) is returned unchanged. -/
theorem claim_C8 (ps : Peers) (A : SocketAddr) (m : Message)
    (h : lookupPeer ps.peers A = none) :
    Peers.send ps A m = (.error .peerNotConnected, ps) := by
  unfold Peers.send
  rw [h]

/-- Witness for claim C8 at a concrete non-connected address. -/
theorem claim_C8_witness :
    lookupPeer psW.peers addrA = none ∧ Peers.send psW addrA .Pong = (.error .peerNotConnected, psW) :=
  ⟨rfl, claim_C8 psW addrA .Pong rfl⟩

/-- Claim C9: `local_ip()` fails while the cell is unset (and a fresh
registry starts unset), the listener's recording step sets it so that
`local_ip()` afterwards returns the bound address, and setting it a
second time is the source's `.expect` panic — a fatal condition, not a
recoverable error. -/
theorem claim_C9 :
    (∀ ps : Peers, ps.local_ip = none → Peers.local_ip_get ps = .error .localIpUnknown)
  ∧ Peers.new.local_ip = none
  ∧ (∀ (ps : Peers) (addr : SocketAddr), ps.local_ip = none →
      Peers.listen_set_local_ip ps addr = .ok { ps with local_ip := some addr }
      ∧ Peers.local_ip_get { ps with local_ip := some addr } = .ok addr)
  ∧ (∀ (ps : Peers) (addr a : SocketAddr), ps.local_ip = some a →
      Peers.listen_set_local_ip ps addr = .error .setMoreThanOnce) := by
  refine ⟨?_, rfl, ?_, ?_⟩
  · intro ps h
    unfold Peers.local_ip_get
    rw [h]
  · intro ps addr h
    refine ⟨?_, rfl⟩
    unfold Peers.listen_set_local_ip
    rw [h]
  · intro ps addr a h
    unfold Peers.listen_set_local_ip
    rw [h]

/-- Witness for claim C9 on a fresh registry: unset get fails, the
first set succeeds and is then readable, the second set panics. -/
theorem claim_C9_witness :
    Peers.local_ip_get Peers.new = .error .localIpUnknown
    ∧ Peers.listen_set_local_ip Peers.new addrL = .ok ⟨[], some addrL⟩
    ∧ Peers.local_ip_get ⟨[], some addrL⟩ = .ok addrL
    ∧ Peers.listen_set_local_ip ⟨[], some addrL⟩ addrA = .error .setMoreThanOnce :=
  ⟨claim_C9.1 Peers.new rfl,
   (claim_C9.2.2.1 Peers.new addrL rfl).1,
   (claim_C9.2.2.1 Peers.new addrL rfl).2,
   claim_C9.2.2.2 ⟨[], some addrL⟩ addrA addrL rfl⟩

theorem connect_check_eq (ps : Peers) (L T : SocketAddr) (hL : ps.local_ip = some L) :
    Peers.connect_to_check ps T
      = if T = L ∨ (((T.ip.is_unspecified || T.ip.is_loopback) && (T.port == L.port)) = true)
        then .error .selfConnectAttempt else .ok T := by
  unfold Peers.connect_to_check Peers.local_ip_get
  rw [hL]

/-- Claim C5: `Peers::connect_to` fails with `LocalAddressUnknown` when
the local address is not yet known, and otherwise fails with
`SelfConnectAttempt` exactly when the target equals the local address or
the target's IP is unspecified or loopback and its port equals the
local port; in all other cases the precheck passes, and only that `.ok`
case reaches a socket operation in the source. -/
theorem claim_C5 (ps : Peers) (T : SocketAddr) :
    (ps.local_ip = none → Peers.connect_to_check ps T = .error .localIpUnknown)
  ∧ (∀ L, ps.local_ip = some L →
      ((Peers.connect_to_check ps T = .error .selfConnectAttempt)
        ↔ (T = L ∨ ((T.ip.is_unspecified = true ∨ T.ip.is_loopback = true) ∧ T.port = L.port)))
      ∧ (¬(T = L ∨ ((T.ip.is_unspecified = true ∨ T.ip.is_loopback = true) ∧ T.port = L.port)) →
          Peers.connect_to_check ps T = .ok T)) := by
  constructor
  · intro h
    unfold Peers.connect_to_check Peers.local_ip_get
    rw [h]
  · intro L hL
    have hiff : (T = L ∨ (((T.ip.is_unspecified || T.ip.is_loopback) && (T.port == L.port)) = true))
        ↔ (T = L ∨ ((T.ip.is_unspecified = true ∨ T.ip.is_loopback = true) ∧ T.port = L.port)) := by
      simp [Bool.and_eq_true, Bool.or_eq_true]
    constructor
    · rw [connect_check_eq ps L T hL]
      split_ifs with hcond
      · exact iff_of_true rfl (hiff.mp hcond)
      · exact iff_of_false (by simp) (fun hcontra => hcond (hiff.mpr hcontra))
    · intro hn
      rw [connect_check_eq ps L T hL, if_neg (fun hcond => hn (hiff.mp hcond))]

/-- Witness for claim C5: with the local address unknown the check
fails with `LocalAddressUnknown`; with local address `127.0.0.1:4130`,
dialing it, or dialing `0.0.0.0:4130`, is `SelfConnectAttempt`, while a
genuine remote address passes the precheck. -/
theorem claim_C5_witness :
    Peers.connect_to_check ⟨[], none⟩ addrA = .error .localIpUnknown
    ∧ Peers.connect_to_check psW addrL = .error .selfConnectAttempt
    ∧ Peers.connect_to_check psW ⟨⟨0, 0, 0, 0⟩, 4130⟩ = .error .selfConnectAttempt
    ∧ Peers.connect_to_check psW addrA = .ok addrA :=
  ⟨(claim_C5 ⟨[], none⟩ addrA).1 rfl,
   ((claim_C5 psW addrL).2 addrL rfl).1.mpr (Or.inl rfl),
   ((claim_C5 psW ⟨⟨0, 0, 0, 0⟩, 4130⟩).2 addrL rfl).1.mpr (Or.inr ⟨Or.inl (by decide), rfl⟩),
   ((claim_C5 psW addrA).2 addrL rfl).2 (by decide)⟩

theorem peerNew_challenge_eq (ps : Peers) (g : BlockHeader) (tcp L : SocketAddr) (lp h : Nat) (hdr : BlockHeader)
    (hL : ps.local_ip = some L) :
    Peer.new ps g tcp (.frame (.ok (.ChallengeRequest lp h))) (.frame (.ok (.ChallengeResponse hdr)))
      = if hdr.height = CHALLENGE_HEIGHT ∧ hdr = g ∧ hdr.is_valid = true then
          .ok (tcp.set_port lp,
               { ps with peers := insertPeer ps.peers (tcp.set_port lp) ⟨false, []⟩ },
               [Message.ChallengeRequest L.port CHALLENGE_HEIGHT, Message.ChallengeResponse g, Message.Ping 0])
        else .error .challengeFailed := by
  unfold Peer.new
  rw [hL]

/-- Claim C4: on a `ChallengeResponse`, the handshake accepts the
counterparty if and only if the received header's height equals
`CHALLENGE_HEIGHT`, the header equals this node's genesis header, and
the header passes `is_valid`; failing any condition yields the
challenge-failure error, the connection attempt aborts, and no registry
entry is created (the handler leaves the registry exactly as it was). -/
theorem claim_C4 (ps : Peers) (g : BlockHeader) (tcp L : SocketAddr) (lp h : Nat) (hdr : BlockHeader)
    (hL : ps.local_ip = some L) :
    (hdr.height = CHALLENGE_HEIGHT ∧ hdr = g ∧ hdr.is_valid = true →
      Peer.new ps g tcp (.frame (.ok (.ChallengeRequest lp h))) (.frame (.ok (.ChallengeResponse hdr)))
        = .ok (tcp.set_port lp,
               { ps with peers := insertPeer ps.peers (tcp.set_port lp) ⟨false, []⟩ },
               [Message.ChallengeRequest L.port CHALLENGE_HEIGHT, Message.ChallengeResponse g, Message.Ping 0]))
  ∧ (¬(hdr.height = CHALLENGE_HEIGHT ∧ hdr = g ∧ hdr.is_valid = true) →
      Peer.new ps g tcp (.frame (.ok (.ChallengeRequest lp h))) (.frame (.ok (.ChallengeResponse hdr)))
        = .error .challengeFailed
      ∧ ∀ (t : Nat) (trace : List LoopEvent),
          Peer.handlerModel ps g tcp (.frame (.ok (.ChallengeRequest lp h)))
              (.frame (.ok (.ChallengeResponse hdr))) t trace
            = (ps, .failed (.handshake .challengeFailed))) := by
  constructor
  · intro hc
    rw [peerNew_challenge_eq ps g tcp L lp h hdr hL, if_pos hc]
  · intro hc
    have hnew : Peer.new ps g tcp (.frame (.ok (.ChallengeRequest lp h)))
        (.frame (.ok (.ChallengeResponse hdr))) = .error .challengeFailed := by
      rw [peerNew_challenge_eq ps g tcp L lp h hdr hL, if_neg hc]
    refine ⟨hnew, fun t trace => ?_⟩
    unfold Peer.handlerModel
    rw [hnew]

/-- Witness for claim C4: with matching genesis header the handshake is
accepted and the entry inserted; with a header of the wrong height it is
rejected, and the handler ends with the registry unchanged. -/
theorem claim_C4_witness :
    Peer.new psW genesisH tcpC ev1C ev2C
      = .ok (⟨⟨9, 8, 7, 6⟩, 4131⟩, ⟨[(⟨⟨9, 8, 7, 6⟩, 4131⟩, ⟨false, []⟩)], some addrL⟩,
             [Message.ChallengeRequest 4130 0, Message.ChallengeResponse genesisH, Message.Ping 0])
    ∧ Peer.new psW genesisH tcpC ev1C (.frame (.ok (.ChallengeResponse ⟨3, 77, true⟩)))
      = .error .challengeFailed
    ∧ Peer.handlerModel psW genesisH tcpC ev1C (.frame (.ok (.ChallengeResponse ⟨3, 77, true⟩))) 0 []
      = (psW, .failed (.handshake .challengeFailed)) :=
  ⟨(claim_C4 psW genesisH tcpC addrL 4131 7 genesisH rfl).1 (by decide),
   ((claim_C4 psW genesisH tcpC addrL 4131 7 ⟨3, 77, true⟩ rfl).2 (by decide)).1,
   ((claim_C4 psW genesisH tcpC addrL 4131 7 ⟨3, 77, true⟩ rfl).2 (by decide)).2 0 []⟩

/-- Claim C6: every successfully completed handshake creates its
registry entry under the TCP remote IP paired with the listener port
the counterparty declared in its `ChallengeRequest` — not the TCP
source port of the underlying connection. -/
theorem claim_C6 (ps : Peers) (g : BlockHeader) (tcp : SocketAddr) (ev1 ev2 : RecvEvent)
    (pip : SocketAddr) (ps2 : Peers) (sent : List Message)
    (hok : Peer.new ps g tcp ev1 ev2 = .ok (pip, ps2, sent)) :
    ∃ lp h, ev1 = .frame (.ok (.ChallengeRequest lp h))
      ∧ pip = tcp.set_port lp
      ∧ pip.ip = tcp.ip
      ∧ lookupPeer ps2.peers pip = some ⟨false, []⟩ := by
  obtain ⟨L, lp, h, hdr, hL, he1, he2, hh, hg, hv, hpip, hps2, hsent⟩ :=
    handshake_ok_shape ps g tcp ev1 ev2 pip ps2 sent hok
  subst hpip
  subst hps2
  refine ⟨lp, h, he1, rfl, rfl, ?_⟩
  rw [show ({ ps with peers := insertPeer ps.peers (tcp.set_port lp) ⟨false, []⟩ } : Peers).peers
        = insertPeer ps.peers (tcp.set_port lp) ⟨false, []⟩ from rfl,
      lookupPeer_insertPeer, if_pos rfl]

/-- Witness for claim C6: the concrete handshake over a connection with
ephemeral source port 555 and declared listener port 4131 is keyed by
port 4131. -/
theorem claim_C6_witness :
    ∃ lp h, ev1C = RecvEvent.frame (.ok (.ChallengeRequest lp h))
      ∧ (⟨⟨9, 8, 7, 6⟩, 4131⟩ : SocketAddr) = tcpC.set_port lp
      ∧ (⟨⟨9, 8, 7, 6⟩, 4131⟩ : SocketAddr).ip = tcpC.ip
      ∧ lookupPeer [(⟨⟨9, 8, 7, 6⟩, 4131⟩, ⟨false, []⟩)] ⟨⟨9, 8, 7, 6⟩, 4131⟩ = some ⟨false, []⟩ :=
  claim_C6 psW genesisH tcpC ev1C ev2C ⟨⟨9, 8, 7, 6⟩, 4131⟩
    ⟨[(⟨⟨9, 8, 7, 6⟩, 4131⟩, ⟨false, []⟩)], some addrL⟩
    [Message.ChallengeRequest 4130 0, Message.ChallengeResponse genesisH, Message.Ping 0] (by decide)

/-- Counterexample to claim C1 as stated: a session admitted by a
successful handshake terminates through a socket write error (the `?`
on `peer.send` in the loop body), yet its registry entry is NOT
removed — the early return skips the removal epilogue, so termination
does not always remove the entry. -/
theorem claim_C1_counterexample :
    Peer.handlerModel psW genesisH tcpC ev1C ev2C 0 [LoopEvent.router 1 .Pong false]
      = (⟨[(⟨⟨9, 8, 7, 6⟩, 4131⟩, ⟨false, []⟩)], some addrL⟩, .failed (.loop .writeFailed))
    ∧ Peers.is_connected_to
        (Peer.handlerModel psW genesisH tcpC ev1C ev2C 0 [LoopEvent.router 1 .Pong false]).1
        ⟨⟨9, 8, 7, 6⟩, 4131⟩ = true := by
  exact ⟨by decide, by decide⟩

/-- Claim C1 as amended: termination of the steady-state loop by
`break` (inactivity timeout, post-handshake protocol violation, stream
closure) reaches the epilogue, which removes exactly this peer's entry
(removal is absent-safe and leaves every other key untouched), and no
other registry operation — `send`, `broadcast`, or the handshake's
insert — ever removes an entry; but termination by an error propagated
with `?` (socket write failure or deserialization failure) returns
early and does not remove the entry. -/
theorem claim_C1_amended :
    (∀ (reg : Peers) (ip : SocketAddr) (sent : List Message) (st : LoopState),
        handlerFinish reg ip (sent, st, .broke)
          = ({ reg with peers := removePeer reg.peers ip }, .returned))
  ∧ (∀ (l : List (SocketAddr × Channel)) (ip : SocketAddr), lookupPeer (removePeer l ip) ip = none)
  ∧ (∀ (l : List (SocketAddr × Channel)) (ip x : SocketAddr), x ≠ ip →
        lookupPeer (removePeer l ip) x = lookupPeer l x)
  ∧ (∀ (l : List (SocketAddr × Channel)) (ip : SocketAddr),
        lookupPeer l ip = none → removePeer l ip = l)
  ∧ (∀ (reg : Peers) (ip : SocketAddr) (sent : List Message) (st : LoopState) (e : LoopErr),
        handlerFinish reg ip (sent, st, .errored e) = (reg, .failed (.loop e)))
  ∧ (∀ (ps : Peers) (p : SocketAddr) (m : Message),
        ((Peers.send ps p m).2).peers.map Prod.fst = ps.peers.map Prod.fst)
  ∧ (∀ (ps : Peers) (s : SocketAddr) (m : Message),
        ((Peers.broadcast ps s m).2).peers.map Prod.fst = ps.peers.map Prod.fst)
  ∧ (∀ (ps : Peers) (g : BlockHeader) (tcp : SocketAddr) (ev1 ev2 : RecvEvent)
        (pip : SocketAddr) (ps2 : Peers) (sent : List Message),
        Peer.new ps g tcp ev1 ev2 = .ok (pip, ps2, sent) →
        ∀ x, (lookupPeer ps.peers x).isSome = true → (lookupPeer ps2.peers x).isSome = true) := by
  refine ⟨fun reg ip sent st => rfl,
          lookupPeer_removePeer_self,
          fun l ip x hx => lookupPeer_removePeer_ne l ip x hx,
          removePeer_of_lookup_none,
          fun reg ip sent st e => rfl, ?_, ?_, ?_⟩
  · intro ps p m
    unfold Peers.send
    cases hl : lookupPeer ps.peers p with
    | none => rfl
    | some outbound =>
      cases hs : Channel.send outbound m with
      | ok ch2 =>
        simp only [hs]
        exact insertPeer_map_fst ps.peers p ch2 outbound hl
      | error e =>
        simp only [hs]
  · intro ps s m
    exact broadcastList_map_fst ps.peers s m
  · intro ps g tcp ev1 ev2 pip ps2 sent hok x hx
    obtain ⟨L, lp, h, hdr, hL, he1, he2, hh, hg, hv, hpip, hps2, hsent⟩ :=
      handshake_ok_shape ps g tcp ev1 ev2 pip ps2 sent hok
    subst hps2
    show (lookupPeer (insertPeer ps.peers (tcp.set_port lp) ⟨false, []⟩) x).isSome = true
    rw [lookupPeer_insertPeer]
    by_cases hc : tcp.set_port lp = x
    · rw [if_pos hc]
      rfl
    · rw [if_neg hc]
      exact hx

/-- Witness for claim C1 as amended, at concrete inputs: a `break`
termination erases the entry, removal is absent-safe and preserves
other keys, an `errored` termination leaves the registry untouched,
and a handshake insert preserves existing entries. -/
theorem claim_C1_witness :
    handlerFinish ⟨[(addrB, openChan)], some addrL⟩ addrB ([], ⟨0⟩, .broke)
      = (⟨[], some addrL⟩, .returned)
    ∧ lookupPeer (removePeer [(addrB, openChan)] addrB) addrB = none
    ∧ lookupPeer (removePeer [(addrB, openChan)] addrB) addrA = lookupPeer [(addrB, openChan)] addrA
    ∧ removePeer ([] : List (SocketAddr × Channel)) addrB = []
    ∧ handlerFinish ⟨[(addrB, openChan)], some addrL⟩ addrB ([], ⟨0⟩, .errored .writeFailed)
      = (⟨[(addrB, openChan)], some addrL⟩, .failed (.loop .writeFailed))
    ∧ (lookupPeer (insertPeer [(addrB, openChan)] (tcpC.set_port 4131) ⟨false, []⟩) addrB).isSome = true :=
  ⟨claim_C1_amended.1 ⟨[(addrB, openChan)], some addrL⟩ addrB [] ⟨0⟩,
   claim_C1_amended.2.1 [(addrB, openChan)] addrB,
   claim_C1_amended.2.2.1 [(addrB, openChan)] addrB addrA (by decide),
   claim_C1_amended.2.2.2.1 [] addrB rfl,
   claim_C1_amended.2.2.2.2.1 ⟨[(addrB, openChan)], some addrL⟩ addrB [] ⟨0⟩ .writeFailed,
   claim_C1_amended.2.2.2.2.2.2.2 ⟨[(addrB, openChan)], some addrL⟩ genesisH tcpC ev1C ev2C
     (tcpC.set_port 4131)
     ⟨insertPeer [(addrB, openChan)] (tcpC.set_port 4131) ⟨false, []⟩, some addrL⟩
     [Message.ChallengeRequest 4130 0, Message.ChallengeResponse genesisH, Message.Ping 0]
     (by decide) addrB (by decide)⟩

/-- Counterexample to claim C2 as stated: broadcasting over a registry
of two peers where the first iterated entry has a closed channel stops
with that error propagated by `?`, and the second (open) peer is left
undelivered — the other N−1 sends are not all attempted. -/
theorem claim_C2_counterexample :
    Peers.broadcast ⟨[(addrA, closedChan), (addrB, openChan)], some addrL⟩ addrC .Pong
      = (.error .channelClosed, ⟨[(addrA, closedChan), (addrB, openChan)], some addrL⟩) := by
  decide

/-- Claim C2 as amended: `Peers::broadcast` attempts the sends in
iteration order; when every non-sender channel is open it delivers the
message to every non-sender peer and returns ok, but the first send to
a closed non-sender channel has its error propagated as the broadcast's
own result, aborting the sends to all later entries — peers iterated
before the failure keep their deliveries, later ones get nothing. -/
theorem claim_C2_amended (ps : Peers) (s : SocketAddr) (m : Message) :
    ((∀ p ∈ ps.peers, p.1 ≠ s → p.2.closed = false) →
      Peers.broadcast ps s m = (.ok (), { ps with peers := deliverAll ps.peers s m }))
  ∧ (∀ (pre post : List (SocketAddr × Channel)) (a : SocketAddr) (ch : Channel),
      ps.peers = pre ++ (a, ch) :: post → a ≠ s → ch.closed = true →
      (∀ p ∈ pre, p.1 ≠ s → p.2.closed = false) →
      Peers.broadcast ps s m
        = (.error .channelClosed, { ps with peers := deliverAll pre s m ++ (a, ch) :: post })) := by
  constructor
  · intro h
    simp only [Peers.broadcast, broadcastList_allOpen ps.peers s m h]
  · intro pre post a ch hsplit hne hclosed hpre
    simp only [Peers.broadcast, hsplit, broadcastList_closedAt pre post a ch s m hne hclosed hpre]

/-- Witness for claim C2 as amended: with the open peer iterated before
the closed one, the open peer receives the message and the broadcast
then aborts with the closed-channel error. -/
theorem claim_C2_witness :
    Peers.broadcast ⟨[(addrB, openChan), (addrA, closedChan)], some addrL⟩ addrC .Pong
      = (.error .channelClosed,
         ⟨deliverAll [(addrB, openChan)] addrC .Pong ++ [(addrA, closedChan)], some addrL⟩) :=
  (claim_C2_amended ⟨[(addrB, openChan), (addrA, closedChan)], some addrL⟩ addrC .Pong).2
    [(addrB, openChan)] [] addrA closedChan rfl (by decide) rfl (by decide)

/-- Counterexample to claim C3 as stated: a socket read error does not
terminate the steady-state loop — the source only logs it and the loop
keeps running. -/
theorem claim_C3_counterexample :
    runLoop ⟨0⟩ [LoopEvent.streamError 5] = ([], ⟨0⟩, .running) := by decide

/-- Claim C3 as amended: a read error is logged and the loop continues
exactly as if the event had not occurred, while a clean stream closure
(no more frames) terminates the loop without error — it breaks, reaches
the removal epilogue, and the handler returns ok. -/
theorem claim_C3_amended (st : LoopState) (t : Nat) (rest : List LoopEvent) (reg : Peers) (ip : SocketAddr) :
    runLoop st (LoopEvent.streamError t :: rest) = runLoop st rest
  ∧ runLoop st (LoopEvent.closed t :: rest) = ([], st, .broke)
  ∧ handlerFinish reg ip (runLoop st (LoopEvent.closed t :: rest))
      = ({ reg with peers := removePeer reg.peers ip }, .returned) :=
  ⟨rfl, rfl, rfl⟩

/-- Counterexample to claim C7 as stated: an admitted session that sees
no inbound frames far beyond the inactivity threshold (a lone read
error fires at time 1000000 with `last_seen = 0`) does not terminate,
and its registry entry does not disappear — the threshold is only
checked when an outbound message is routed. -/
theorem claim_C7_counterexample :
    runLoop ⟨0⟩ [LoopEvent.streamError 1000000] = ([], ⟨0⟩, .running)
    ∧ handlerFinish ⟨[(addrB, openChan)], some addrL⟩ addrB (runLoop ⟨0⟩ [LoopEvent.streamError 1000000])
        = (⟨[(addrB, openChan)], some addrL⟩, .running)
    ∧ Peers.is_connected_to ⟨[(addrB, openChan)], some addrL⟩ addrB = true := by
  exact ⟨by decide, by decide, by decide⟩

/-- Claim C7 as amended: the inactivity check runs only when an
outbound message is routed to the session — with no events the loop
never self-terminates regardless of elapsed time, but at the first
routed message more than the threshold after `last_seen` the session
breaks instead of forwarding (nothing is written), and the registry
entry then disappears through the epilogue. -/
theorem claim_C7_amended :
    (∀ st : LoopState, runLoop st [] = ([], st, .running))
  ∧ (∀ (st : LoopState) (t : Nat) (m : Message) (w : Bool) (rest : List LoopEvent),
      t - st.last_seen > INACTIVITY_TIMEOUT_SECS →
        runLoop st (.router t m w :: rest) = ([], st, .broke))
  ∧ (∀ (reg : Peers) (ip : SocketAddr) (st : LoopState) (t : Nat) (m : Message) (w : Bool)
        (rest : List LoopEvent),
      t - st.last_seen > INACTIVITY_TIMEOUT_SECS →
        lookupPeer ((handlerFinish reg ip (runLoop st (.router t m w :: rest))).1).peers ip = none) := by
  refine ⟨fun st => rfl, ?_, ?_⟩
  · intro st t m w rest ht
    simp [runLoop, ht]
  · intro reg ip st t m w rest ht
    rw [show runLoop st (.router t m w :: rest) = ([], st, .broke) by simp [runLoop, ht]]
    exact lookupPeer_removePeer_self reg.peers ip

/-- Witness for claim C7 as amended: a routed message at time 281 with
`last_seen = 0` exceeds the 280-second threshold, the loop breaks
without forwarding, and the peer's entry is gone afterwards. -/
theorem claim_C7_witness :
    runLoop ⟨0⟩ [] = ([], ⟨0⟩, .running)
    ∧ runLoop ⟨0⟩ [LoopEvent.router 281 .Pong true] = ([], ⟨0⟩, .broke)
    ∧ lookupPeer ((handlerFinish ⟨[(addrB, openChan)], some addrL⟩ addrB
        (runLoop ⟨0⟩ [LoopEvent.router 281 .Pong true])).1).peers addrB = none :=
  ⟨claim_C7_amended.1 ⟨0⟩,
   claim_C7_amended.2.1 ⟨0⟩ 281 .Pong true [] (by decide),
   claim_C7_amended.2.2 ⟨[(addrB, openChan)], some addrL⟩ addrB ⟨0⟩ 281 .Pong true [] (by decide)⟩
